import Mathlib

/-!
Verification of the digit-transform core of the encrypt-decrypt-data
repository (`src/functions/crypto.py`): `swap_digits`, `encrypt_number`,
`decrypt_number`.

Strings are modelled as Lean `String` (a sequence of Unicode scalar
values, matching Python `str`).  Python's `str.isdigit` and `int` on a
single character are Unicode-aware; they are modelled below on a covered
character set (ASCII digits, the Arabic-Indic decimal digits U+0660..U+0669,
and the superscript digits U+00B2, U+00B3, U+00B9).  Characters outside the
covered set are treated as non-digits; every theorem quantifying over
arbitrary strings only relies on the covered set through concrete inputs,
or restricts attention to ASCII inputs by hypothesis.

A raised Python exception is modelled as `Except.error`; returning `None`
is `Except.ok none`.
-/

/-- The Python exceptions the embedded functions can raise:
`ValueError` (from `int(...)` on a non-decimal character) and
`IndexError` (from indexing a too-short list). -/
inductive PyExn
  | valueError
  | indexError
deriving DecidableEq

/-- Model of Python `str.isdigit()` restricted to a single character `c`:
true iff `c` has Unicode `Numeric_Type=Decimal` or `Numeric_Type=Digit`.
Covered: ASCII `'0'..'9'` (U+0030..U+0039, Decimal), the Arabic-Indic
digits U+0660..U+0669 (Decimal), and the superscripts U+00B2, U+00B3,
U+00B9 (Digit only, so `int()` rejects them).  All other code points are
treated as non-digits. -/
def pyIsDigitChar (c : Char) : Bool :=
  decide ((48 ≤ c.toNat ∧ c.toNat ≤ 57) ∨
          (0x660 ≤ c.toNat ∧ c.toNat ≤ 0x669) ∨
          c.toNat = 0xB2 ∨ c.toNat = 0xB3 ∨ c.toNat = 0xB9)

/-- Model of Python `str.isdigit()`: the string is non-empty and every
character is a digit character. -/
def pyIsDigit (s : String) : Bool :=
  !s.data.isEmpty && s.data.all pyIsDigitChar

/-- Model of Python `int(c)` for a single character `c`: succeeds exactly
on characters of Unicode category Nd (`Numeric_Type=Decimal`), returning
their decimal value; raises `ValueError` (here: `none`) otherwise — in
particular on the digit-only superscripts even though `isdigit` accepts
them. -/
def pyIntOfChar (c : Char) : Option Int :=
  if 48 ≤ c.toNat ∧ c.toNat ≤ 57 then some ((c.toNat : Int) - 48)
  else if 0x660 ≤ c.toNat ∧ c.toNat ≤ 0x669 then some ((c.toNat : Int) - 0x660)
  else none

/-- The list comprehension `[int(d) for d in number_str]`: converts each
character in order, propagating the first `ValueError`. -/
def pyIntList : List Char → Option (List Int)
  | [] => some []
  | c :: cs =>
    match pyIntOfChar c, pyIntList cs with
    | some d, some ds => some (d :: ds)
    | _, _ => none

/-- One Python simultaneous swap statement
`l[i], l[j] = l[j], l[i]` on a list value: both reads happen before the
two writes; `none` models the `IndexError` raised when an index is out of
range. -/
def swapPairAt (l : List α) (i j : Nat) : Option (List α) :=
  match l.get? i, l.get? j with
  | some a, some b => some ((l.set i b).set j a)
  | _, _ => none

/-- `swap_digits` from `src/functions/crypto.py`, as a function on list
values: copy the input (value-level identity), then swap positions 0↔2,
1↔3 and 4↔5 in turn.  `none` models the `IndexError` raised on a list
with fewer than 6 elements. -/
def swap_digits (digits : List α) : Option (List α) :=
  (swapPairAt digits 0 2).bind fun r1 =>
    (swapPairAt r1 1 3).bind fun r2 =>
      swapPairAt r2 4 5

/-- `str(d)` for a Python int `d`. -/
def strOfInt (d : Int) : String := toString d

/-- `"".join(map(str, digits))`. -/
def joinDigits (ds : List Int) : String := String.join (ds.map strOfInt)

/-- `encrypt_number` from `src/functions/crypto.py`. -/
def encrypt_number (number_str : String) : Except PyExn (Option String) :=
  if !(pyIsDigit number_str && number_str.length == 6) then
    Except.ok none
  else
    match pyIntList number_str.data with
    | none => Except.error PyExn.valueError
    | some digits =>
      let encrypted_digits := digits.map fun d => (d + 7) % 10
      match swap_digits encrypted_digits with
      | none => Except.error PyExn.indexError
      | some swapped => Except.ok (some (joinDigits swapped))

/-- `decrypt_number` from `src/functions/crypto.py`. -/
def decrypt_number (encrypted_str : String) : Except PyExn (Option String) :=
  if !(pyIsDigit encrypted_str && encrypted_str.length == 6) then
    Except.ok none
  else
    match pyIntList encrypted_str.data with
    | none => Except.error PyExn.valueError
    | some digits =>
      match swap_digits digits with
      | none => Except.error PyExn.indexError
      | some swapped =>
        Except.ok (some (joinDigits (swapped.map fun d => (d - 7 + 10) % 10)))

/-- A string of exactly 6 ASCII decimal digit characters: the input class
the specification's claims quantify over. -/
def SixDigitString (s : String) : Prop :=
  s.length = 6 ∧ ∀ c ∈ s.data, 48 ≤ c.toNat ∧ c.toNat ≤ 57

instance (s : String) : Decidable (SixDigitString s) := by
  unfold SixDigitString; infer_instance

instance {ε α : Type} [DecidableEq ε] [DecidableEq α] : DecidableEq (Except ε α) :=
  fun x y =>
    match x, y with
    | .ok a, .ok b =>
      if h : a = b then .isTrue (by rw [h]) else .isFalse (by simp [h])
    | .error a, .error b =>
      if h : a = b then .isTrue (by rw [h]) else .isFalse (by simp [h])
    | .ok _, .error _ => .isFalse (by simp)
    | .error _, .ok _ => .isFalse (by simp)

/-- The ASCII character of a digit value `d` in `[0,9]`. -/
def digitChar (d : Int) : Char := Char.ofNat (48 + d.toNat)

/-! Definitions written from the specification's words (§4.2–§4.4), used to
state the refinement claims: they describe the pipeline the spec prescribes,
to be compared with the functions embedded from the source above. -/

/-- Spec §4.3 step 2: parse a validated string left-to-right into digit
values, string order matching position index 0..5. -/
def specParse (s : String) : List Int :=
  s.data.map fun c => (c.toNat : Int) - 48

/-- Spec §4.3 step 3: per-digit shift, `d ↦ (d + 7) mod 10`. -/
def specShiftF (ds : List Int) : List Int := ds.map fun d => (d + 7) % 10

/-- Spec §4.4 step 4: per-digit inverse shift, `d ↦ (d - 7 + 10) mod 10`. -/
def specShiftB (ds : List Int) : List Int := ds.map fun d => (d - 7 + 10) % 10

/-- Spec §4.2: the fixed permutation on a 6-element sequence exchanging
positions (0,2), (1,3) and (4,5). -/
def specSwap (ds : List Int) : List Int :=
  match ds with
  | [a, b, c, d, e, f] => [c, d, a, b, f, e]
  | l => l

/-- Spec §4.3 step 5: render the 6 digit values back to a 6-character
string in position order, no separators, no leading-zero suppression. -/
def specRender (ds : List Int) : String :=
  String.mk (ds.map digitChar)

/-- Spec §4.3: the forward transform on a validated input — shift, then
swap, then render. -/
def specForward (s : String) : String :=
  specRender (specSwap (specShiftF (specParse s)))

/-- Spec §4.4: the backward transform on a validated input — swap first,
then inverse shift, then render. -/
def specBackward (s : String) : String :=
  specRender (specShiftB (specSwap (specParse s)))

/-- The digit value of an ASCII digit character. -/
def charVal (c : Char) : Int := (c.toNat : Int) - 48

/-- Six Arabic-Indic zero digits (U+0660): every character passes Python's
Unicode-aware `isdigit` and is decoded by `int(...)` to 0, yet none is an
ASCII digit. -/
def arabicZeros : String := String.mk (List.replicate 6 (Char.ofNat 0x660))

/-- Six superscript-two characters (U+00B2): every character passes
Python's `isdigit` (Numeric_Type=Digit), but `int(...)` rejects it
(`ValueError`), because it is not of Numeric_Type=Decimal. -/
def superTwos : String := String.mk (List.replicate 6 (Char.ofNat 0xB2))

/-! A small heap model of Python list objects, used to state the
no-mutation / no-aliasing claim about `swap_digits`: each list object has
an identity (a cell index) and a current list value; `digits.copy()`
allocates a fresh object, and item assignment mutates an object in
place. -/

/-- A heap of Python list objects: cell `r` holds the current value of
the object whose identity is `r`. -/
structure PyListStore (α : Type) where
  cells : List (List α)

/-- Dereference: the current value of object `r`. -/
def storeRead (st : PyListStore α) (r : Nat) : List α :=
  (st.cells.get? r).getD []

/-- In-place update of object `r`'s value. -/
def storeWrite (st : PyListStore α) (r : Nat) (v : List α) : PyListStore α :=
  ⟨st.cells.set r v⟩

/-- `digits.copy()`: allocate a fresh list object holding value `v`; its
identity is the next unused cell index, distinct from every live
object. -/
def storeAlloc (st : PyListStore α) (v : List α) : PyListStore α × Nat :=
  (⟨st.cells ++ [v]⟩, st.cells.length)

/-- The statement `obj[i], obj[j] = obj[j], obj[i]` executed on object
`r`: mutates that object in place; `none` models the `IndexError` raised
when an index is out of range. -/
def storeSwapPair (st : PyListStore α) (r : Nat) (i j : Nat) :
    Option (PyListStore α) :=
  match swapPairAt (storeRead st r) i j with
  | some v => some (storeWrite st r v)
  | none => none

/-- `swap_digits` as it executes on the heap, statement by statement:
`result = digits.copy()` allocates a fresh object, the three swap
statements mutate only that fresh object, and its identity is returned
(`none` in the second component models an escaping `IndexError`). -/
def swap_digits_st (st : PyListStore α) (digitsRef : Nat) :
    PyListStore α × Option Nat :=
  let alloc := storeAlloc st (storeRead st digitsRef)
  match storeSwapPair alloc.1 alloc.2 0 2 with
  | none => (alloc.1, none)
  | some st2 =>
    match storeSwapPair st2 alloc.2 1 3 with
    | none => (st2, none)
    | some st3 =>
      match storeSwapPair st3 alloc.2 4 5 with
      | none => (st3, none)
      | some st4 => (st4, some alloc.2)

/-! Basic lemmas. -/

theorem list_eq_six {α : Type} (l : List α) (h : l.length = 6) :
    ∃ a b c d e f, l = [a, b, c, d, e, f] := by
  match l, h with
  | [a, b, c, d, e, f], _ => exact ⟨a, b, c, d, e, f, rfl⟩

theorem swap_digits_six {α : Type} (a b c d e f : α) :
    swap_digits [a, b, c, d, e, f] = some [c, d, a, b, f, e] := rfl

theorem pyIntOfChar_ascii {c : Char} (h1 : 48 ≤ c.toNat) (h2 : c.toNat ≤ 57) :
    pyIntOfChar c = some ((c.toNat : Int) - 48) := by
  simp [pyIntOfChar, h1, h2]

theorem pyIsDigitChar_ascii {c : Char} (h1 : 48 ≤ c.toNat) (h2 : c.toNat ≤ 57) :
    pyIsDigitChar c = true := by
  simp only [pyIsDigitChar, decide_eq_true_eq]
  exact Or.inl ⟨h1, h2⟩

theorem strOfInt_digit {d : Int} (h0 : 0 ≤ d) (h9 : d < 10) :
    strOfInt d = String.mk [digitChar d] := by
  interval_cases d <;> rfl

theorem pyIntOfChar_digitChar {d : Int} (h0 : 0 ≤ d) (h9 : d < 10) :
    pyIntOfChar (digitChar d) = some d := by
  interval_cases d <;> rfl

theorem pyIsDigitChar_digitChar {d : Int} (h0 : 0 ≤ d) (h9 : d < 10) :
    pyIsDigitChar (digitChar d) = true := by
  interval_cases d <;> rfl

theorem digitChar_toNat {d : Int} (h0 : 0 ≤ d) (h9 : d < 10) :
    ((digitChar d).toNat : Int) = 48 + d := by
  interval_cases d <;> rfl

theorem digitChar_ascii {d : Int} (h0 : 0 ≤ d) (h9 : d < 10) :
    48 ≤ (digitChar d).toNat ∧ (digitChar d).toNat ≤ 57 := by
  interval_cases d <;> exact ⟨by decide, by decide⟩

theorem string_mk_append (l m : List Char) :
    String.mk l ++ String.mk m = String.mk (l ++ m) := rfl

theorem joinDigits_six {d0 d1 d2 d3 d4 d5 : Int}
    (h : ∀ d ∈ [d0, d1, d2, d3, d4, d5], 0 ≤ d ∧ d < 10) :
    joinDigits [d0, d1, d2, d3, d4, d5] =
      String.mk [digitChar d0, digitChar d1, digitChar d2,
                 digitChar d3, digitChar d4, digitChar d5] := by
  have e0 := strOfInt_digit (h d0 (by simp)).1 (h d0 (by simp)).2
  have e1 := strOfInt_digit (h d1 (by simp)).1 (h d1 (by simp)).2
  have e2 := strOfInt_digit (h d2 (by simp)).1 (h d2 (by simp)).2
  have e3 := strOfInt_digit (h d3 (by simp)).1 (h d3 (by simp)).2
  have e4 := strOfInt_digit (h d4 (by simp)).1 (h d4 (by simp)).2
  have e5 := strOfInt_digit (h d5 (by simp)).1 (h d5 (by simp)).2
  simp only [joinDigits, List.map, String.join, List.foldl,
    e0, e1, e2, e3, e4, e5]
  rfl


theorem encrypt_number_eval (c0 c1 c2 c3 c4 c5 : Char)
    (h : ∀ c ∈ [c0, c1, c2, c3, c4, c5], 48 ≤ c.toNat ∧ c.toNat ≤ 57) :
    encrypt_number (String.mk [c0, c1, c2, c3, c4, c5]) =
      Except.ok (some (joinDigits
        [(charVal c2 + 7) % 10, (charVal c3 + 7) % 10,
         (charVal c0 + 7) % 10, (charVal c1 + 7) % 10,
         (charVal c5 + 7) % 10, (charVal c4 + 7) % 10])) := by
  have h0 := h c0 (by simp)
  have h1 := h c1 (by simp)
  have h2 := h c2 (by simp)
  have h3 := h c3 (by simp)
  have h4 := h c4 (by simp)
  have h5 := h c5 (by simp)
  have hd : (String.mk [c0, c1, c2, c3, c4, c5]).data = [c0, c1, c2, c3, c4, c5] := rfl
  have hl : (String.mk [c0, c1, c2, c3, c4, c5]).length = 6 := rfl
  simp only [encrypt_number, pyIsDigit, hd, hl, List.isEmpty, List.all,
    pyIsDigitChar_ascii h0.1 h0.2, pyIsDigitChar_ascii h1.1 h1.2,
    pyIsDigitChar_ascii h2.1 h2.2, pyIsDigitChar_ascii h3.1 h3.2,
    pyIsDigitChar_ascii h4.1 h4.2, pyIsDigitChar_ascii h5.1 h5.2,
    pyIntList,
    pyIntOfChar_ascii h0.1 h0.2, pyIntOfChar_ascii h1.1 h1.2,
    pyIntOfChar_ascii h2.1 h2.2, pyIntOfChar_ascii h3.1 h3.2,
    pyIntOfChar_ascii h4.1 h4.2, pyIntOfChar_ascii h5.1 h5.2,
    List.map, swap_digits_six, charVal]
  rfl

theorem decrypt_number_eval (c0 c1 c2 c3 c4 c5 : Char)
    (h : ∀ c ∈ [c0, c1, c2, c3, c4, c5], 48 ≤ c.toNat ∧ c.toNat ≤ 57) :
    decrypt_number (String.mk [c0, c1, c2, c3, c4, c5]) =
      Except.ok (some (joinDigits
        [(charVal c2 - 7 + 10) % 10, (charVal c3 - 7 + 10) % 10,
         (charVal c0 - 7 + 10) % 10, (charVal c1 - 7 + 10) % 10,
         (charVal c5 - 7 + 10) % 10, (charVal c4 - 7 + 10) % 10])) := by
  have h0 := h c0 (by simp)
  have h1 := h c1 (by simp)
  have h2 := h c2 (by simp)
  have h3 := h c3 (by simp)
  have h4 := h c4 (by simp)
  have h5 := h c5 (by simp)
  have hd : (String.mk [c0, c1, c2, c3, c4, c5]).data = [c0, c1, c2, c3, c4, c5] := rfl
  have hl : (String.mk [c0, c1, c2, c3, c4, c5]).length = 6 := rfl
  simp only [decrypt_number, pyIsDigit, hd, hl, List.isEmpty, List.all,
    pyIsDigitChar_ascii h0.1 h0.2, pyIsDigitChar_ascii h1.1 h1.2,
    pyIsDigitChar_ascii h2.1 h2.2, pyIsDigitChar_ascii h3.1 h3.2,
    pyIsDigitChar_ascii h4.1 h4.2, pyIsDigitChar_ascii h5.1 h5.2,
    pyIntList,
    pyIntOfChar_ascii h0.1 h0.2, pyIntOfChar_ascii h1.1 h1.2,
    pyIntOfChar_ascii h2.1 h2.2, pyIntOfChar_ascii h3.1 h3.2,
    pyIntOfChar_ascii h4.1 h4.2, pyIntOfChar_ascii h5.1 h5.2,
    List.map, swap_digits_six, charVal]
  rfl

theorem emod10_bounds (d : Int) : 0 ≤ d % 10 ∧ d % 10 < 10 :=
  ⟨Int.emod_nonneg d (by norm_num), Int.emod_lt_of_pos d (by norm_num)⟩

theorem charVal_digitChar {d : Int} (h0 : 0 ≤ d) (h9 : d < 10) :
    charVal (digitChar d) = d := by
  have := digitChar_toNat h0 h9
  unfold charVal
  omega

theorem digitChar_charVal {c : Char} (h1 : 48 ≤ c.toNat) (h2 : c.toNat ≤ 57) :
    digitChar (charVal c) = c := by
  unfold digitChar charVal
  have hn : (((c.toNat : Int) - 48).toNat) = c.toNat - 48 := by omega
  rw [hn]
  have hm : 48 + (c.toNat - 48) = c.toNat := by omega
  rw [hm, Char.ofNat_toNat]

theorem charVal_bounds {c : Char} (h1 : 48 ≤ c.toNat) (h2 : c.toNat ≤ 57) :
    0 ≤ charVal c ∧ charVal c < 10 := by
  unfold charVal; omega

theorem shift_round {v : Int} (h0 : 0 ≤ v) (h9 : v < 10) :
    ((v + 7) % 10 - 7 + 10) % 10 = v := by omega

theorem shift_round_rev {v : Int} (h0 : 0 ≤ v) (h9 : v < 10) :
    ((v - 7 + 10) % 10 + 7) % 10 = v := by omega

/-! Claim theorems. -/

/-- C4: `swap_digits` is an involution: for every 6-element sequence `x`,
applying it twice returns the original sequence. -/
theorem c4_swap_digits_involution {α : Type} (x : List α) (h : x.length = 6) :
    ∃ y, swap_digits x = some y ∧ swap_digits y = some x := by
  obtain ⟨a, b, c, d, e, f, rfl⟩ := list_eq_six x h
  exact ⟨[c, d, a, b, f, e], swap_digits_six a b c d e f, swap_digits_six c d a b f e⟩

/-- Witness for C4 at the concrete list `[10, 20, 30, 40, 50, 60]`. -/
theorem c4_swap_digits_involution_witness :
    ([10, 20, 30, 40, 50, 60] : List Int).length = 6 ∧
    ∃ y, swap_digits ([10, 20, 30, 40, 50, 60] : List Int) = some y ∧
      swap_digits y = some [10, 20, 30, 40, 50, 60] :=
  ⟨rfl, c4_swap_digits_involution [10, 20, 30, 40, 50, 60] rfl⟩

/-- C5: `swap_digits` computes exactly the fixed permutation exchanging
positions (0,2), (1,3) and (4,5), preserving length 6. -/
theorem c5_swap_digits_permutation {α : Type} (x : List α) (h : x.length = 6) :
    ∃ y, swap_digits x = some y ∧ y.length = 6 ∧
      y.get? 0 = x.get? 2 ∧ y.get? 2 = x.get? 0 ∧
      y.get? 1 = x.get? 3 ∧ y.get? 3 = x.get? 1 ∧
      y.get? 4 = x.get? 5 ∧ y.get? 5 = x.get? 4 := by
  obtain ⟨a, b, c, d, e, f, rfl⟩ := list_eq_six x h
  exact ⟨[c, d, a, b, f, e], swap_digits_six a b c d e f,
    rfl, rfl, rfl, rfl, rfl, rfl, rfl⟩

/-- Witness for C5 at the concrete list `[1, 2, 3, 4, 5, 6]`. -/
theorem c5_swap_digits_permutation_witness :
    ([1, 2, 3, 4, 5, 6] : List Int).length = 6 ∧
    ∃ y, swap_digits ([1, 2, 3, 4, 5, 6] : List Int) = some y ∧ y.length = 6 ∧
      y.get? 0 = ([1, 2, 3, 4, 5, 6] : List Int).get? 2 ∧
      y.get? 2 = ([1, 2, 3, 4, 5, 6] : List Int).get? 0 ∧
      y.get? 1 = ([1, 2, 3, 4, 5, 6] : List Int).get? 3 ∧
      y.get? 3 = ([1, 2, 3, 4, 5, 6] : List Int).get? 1 ∧
      y.get? 4 = ([1, 2, 3, 4, 5, 6] : List Int).get? 5 ∧
      y.get? 5 = ([1, 2, 3, 4, 5, 6] : List Int).get? 4 :=
  ⟨rfl, c5_swap_digits_permutation [1, 2, 3, 4, 5, 6] rfl⟩

/-- C8: the concrete vectors of spec §8: `"123456" ↦ "018932"` and back,
`"000000" ↦ "777777"` and back, `"999999" ↦ "666666"` and back, and the
invalid inputs `"abc123"` and `"12345"` yield the failure signal. -/
theorem c8_concrete_vectors :
    encrypt_number "123456" = Except.ok (some "018932") ∧
    decrypt_number "018932" = Except.ok (some "123456") ∧
    encrypt_number "000000" = Except.ok (some "777777") ∧
    decrypt_number "777777" = Except.ok (some "000000") ∧
    encrypt_number "999999" = Except.ok (some "666666") ∧
    decrypt_number "666666" = Except.ok (some "999999") ∧
    encrypt_number "abc123" = Except.ok none ∧
    encrypt_number "12345" = Except.ok none := by
  refine ⟨?_, ?_, ?_, ?_, ?_, ?_, ?_, ?_⟩ <;> decide

/-- C6: on every 6-ASCII-digit input, `encrypt_number` returns exactly the
result of the spec's forward pipeline: parse left-to-right, shift each
digit by +7 modulo 10, apply the positional swap (0,2)(1,3)(4,5) to the
shifted sequence, and render the digits back in position order with no
leading-zero suppression. -/
theorem c6_encrypt_matches_spec (s : String) (h : SixDigitString s) :
    encrypt_number s = Except.ok (some (specForward s)) := by
  obtain ⟨data⟩ := s
  obtain ⟨hl, hall⟩ := h
  have hl6 : data.length = 6 := hl
  obtain ⟨c0, c1, c2, c3, c4, c5, rfl⟩ := list_eq_six data hl6
  have hall' : ∀ c ∈ [c0, c1, c2, c3, c4, c5], 48 ≤ c.toNat ∧ c.toNat ≤ 57 := hall
  rw [encrypt_number_eval c0 c1 c2 c3 c4 c5 hall']
  have hb : ∀ d ∈ [(charVal c2 + 7) % 10, (charVal c3 + 7) % 10,
      (charVal c0 + 7) % 10, (charVal c1 + 7) % 10,
      (charVal c5 + 7) % 10, (charVal c4 + 7) % 10], 0 ≤ d ∧ d < 10 := by
    intro d hd
    simp only [List.mem_cons, List.not_mem_nil, or_false] at hd
    rcases hd with rfl | rfl | rfl | rfl | rfl | rfl <;> exact emod10_bounds _
  rw [joinDigits_six hb]
  simp only [specForward, specParse, specShiftF, specSwap, specRender,
    List.map, charVal]

/-- Witness for C6 at the concrete input `"102938"`. -/
theorem c6_encrypt_matches_spec_witness :
    SixDigitString "102938" ∧
    encrypt_number "102938" = Except.ok (some (specForward "102938")) :=
  ⟨by decide, c6_encrypt_matches_spec "102938" (by decide)⟩

/-- C7: on every 6-ASCII-digit input, `decrypt_number` returns exactly the
result of the spec's backward pipeline, in which the positional swap is
applied to the parsed sequence first and the per-digit inverse shift
`d ↦ (d - 7 + 10) mod 10` is applied second: the swap is undone before the
shift is undone. -/
theorem c7_decrypt_matches_spec (s : String) (h : SixDigitString s) :
    decrypt_number s = Except.ok (some (specBackward s)) := by
  obtain ⟨data⟩ := s
  obtain ⟨hl, hall⟩ := h
  have hl6 : data.length = 6 := hl
  obtain ⟨c0, c1, c2, c3, c4, c5, rfl⟩ := list_eq_six data hl6
  have hall' : ∀ c ∈ [c0, c1, c2, c3, c4, c5], 48 ≤ c.toNat ∧ c.toNat ≤ 57 := hall
  rw [decrypt_number_eval c0 c1 c2 c3 c4 c5 hall']
  have hb : ∀ d ∈ [(charVal c2 - 7 + 10) % 10, (charVal c3 - 7 + 10) % 10,
      (charVal c0 - 7 + 10) % 10, (charVal c1 - 7 + 10) % 10,
      (charVal c5 - 7 + 10) % 10, (charVal c4 - 7 + 10) % 10], 0 ≤ d ∧ d < 10 := by
    intro d hd
    simp only [List.mem_cons, List.not_mem_nil, or_false] at hd
    rcases hd with rfl | rfl | rfl | rfl | rfl | rfl <;> exact emod10_bounds _
  rw [joinDigits_six hb]
  simp only [specBackward, specParse, specShiftB, specSwap, specRender,
    List.map, charVal]

/-- Witness for C7 at the concrete input `"018932"`. -/
theorem c7_decrypt_matches_spec_witness :
    SixDigitString "018932" ∧
    decrypt_number "018932" = Except.ok (some (specBackward "018932")) :=
  ⟨by decide, c7_decrypt_matches_spec "018932" (by decide)⟩

/-- C1: round trip — for every 6-ASCII-digit string `s`,
`decrypt_number (encrypt_number s) = s` and
`encrypt_number (decrypt_number s) = s`. -/
theorem c1_round_trip (s : String) (h : SixDigitString s) :
    (∃ e, encrypt_number s = Except.ok (some e) ∧
      decrypt_number e = Except.ok (some s)) ∧
    (∃ d, decrypt_number s = Except.ok (some d) ∧
      encrypt_number d = Except.ok (some s)) := by
  obtain ⟨data⟩ := s
  obtain ⟨hl, hall⟩ := h
  have hl6 : data.length = 6 := hl
  obtain ⟨c0, c1, c2, c3, c4, c5, rfl⟩ := list_eq_six data hl6
  have hall' : ∀ c ∈ [c0, c1, c2, c3, c4, c5], 48 ≤ c.toNat ∧ c.toNat ≤ 57 := hall
  have a0 := hall' c0 (by simp)
  have a1 := hall' c1 (by simp)
  have a2 := hall' c2 (by simp)
  have a3 := hall' c3 (by simp)
  have a4 := hall' c4 (by simp)
  have a5 := hall' c5 (by simp)
  have v0 := charVal_bounds a0.1 a0.2
  have v1 := charVal_bounds a1.1 a1.2
  have v2 := charVal_bounds a2.1 a2.2
  have v3 := charVal_bounds a3.1 a3.2
  have v4 := charVal_bounds a4.1 a4.2
  have v5 := charVal_bounds a5.1 a5.2
  constructor
  · -- encrypt, then decrypt
    have he := encrypt_number_eval c0 c1 c2 c3 c4 c5 hall'
    have hbE : ∀ d ∈ [(charVal c2 + 7) % 10, (charVal c3 + 7) % 10,
        (charVal c0 + 7) % 10, (charVal c1 + 7) % 10,
        (charVal c5 + 7) % 10, (charVal c4 + 7) % 10], 0 ≤ d ∧ d < 10 := by
      intro d hd
      simp only [List.mem_cons, List.not_mem_nil, or_false] at hd
      rcases hd with rfl | rfl | rfl | rfl | rfl | rfl <;> exact emod10_bounds _
    rw [joinDigits_six hbE] at he
    refine ⟨_, he, ?_⟩
    have hallE : ∀ c ∈ [digitChar ((charVal c2 + 7) % 10),
        digitChar ((charVal c3 + 7) % 10), digitChar ((charVal c0 + 7) % 10),
        digitChar ((charVal c1 + 7) % 10), digitChar ((charVal c5 + 7) % 10),
        digitChar ((charVal c4 + 7) % 10)], 48 ≤ c.toNat ∧ c.toNat ≤ 57 := by
      intro c hc
      simp only [List.mem_cons, List.not_mem_nil, or_false] at hc
      rcases hc with rfl | rfl | rfl | rfl | rfl | rfl <;>
        exact digitChar_ascii (emod10_bounds _).1 (emod10_bounds _).2
    rw [decrypt_number_eval _ _ _ _ _ _ hallE]
    rw [charVal_digitChar (emod10_bounds (charVal c0 + 7)).1 (emod10_bounds (charVal c0 + 7)).2,
        charVal_digitChar (emod10_bounds (charVal c1 + 7)).1 (emod10_bounds (charVal c1 + 7)).2,
        charVal_digitChar (emod10_bounds (charVal c2 + 7)).1 (emod10_bounds (charVal c2 + 7)).2,
        charVal_digitChar (emod10_bounds (charVal c3 + 7)).1 (emod10_bounds (charVal c3 + 7)).2,
        charVal_digitChar (emod10_bounds (charVal c4 + 7)).1 (emod10_bounds (charVal c4 + 7)).2,
        charVal_digitChar (emod10_bounds (charVal c5 + 7)).1 (emod10_bounds (charVal c5 + 7)).2]
    rw [shift_round v0.1 v0.2, shift_round v1.1 v1.2, shift_round v2.1 v2.2,
        shift_round v3.1 v3.2, shift_round v4.1 v4.2, shift_round v5.1 v5.2]
    have hbV : ∀ d ∈ [charVal c0, charVal c1, charVal c2, charVal c3,
        charVal c4, charVal c5], 0 ≤ d ∧ d < 10 := by
      intro d hd
      simp only [List.mem_cons, List.not_mem_nil, or_false] at hd
      rcases hd with rfl | rfl | rfl | rfl | rfl | rfl <;> assumption
    rw [joinDigits_six hbV]
    rw [digitChar_charVal a0.1 a0.2, digitChar_charVal a1.1 a1.2,
        digitChar_charVal a2.1 a2.2, digitChar_charVal a3.1 a3.2,
        digitChar_charVal a4.1 a4.2, digitChar_charVal a5.1 a5.2]
  · -- decrypt, then encrypt
    have hd := decrypt_number_eval c0 c1 c2 c3 c4 c5 hall'
    have hbD : ∀ d ∈ [(charVal c2 - 7 + 10) % 10, (charVal c3 - 7 + 10) % 10,
        (charVal c0 - 7 + 10) % 10, (charVal c1 - 7 + 10) % 10,
        (charVal c5 - 7 + 10) % 10, (charVal c4 - 7 + 10) % 10], 0 ≤ d ∧ d < 10 := by
      intro d hd'
      simp only [List.mem_cons, List.not_mem_nil, or_false] at hd'
      rcases hd' with rfl | rfl | rfl | rfl | rfl | rfl <;> exact emod10_bounds _
    rw [joinDigits_six hbD] at hd
    refine ⟨_, hd, ?_⟩
    have hallD : ∀ c ∈ [digitChar ((charVal c2 - 7 + 10) % 10),
        digitChar ((charVal c3 - 7 + 10) % 10), digitChar ((charVal c0 - 7 + 10) % 10),
        digitChar ((charVal c1 - 7 + 10) % 10), digitChar ((charVal c5 - 7 + 10) % 10),
        digitChar ((charVal c4 - 7 + 10) % 10)], 48 ≤ c.toNat ∧ c.toNat ≤ 57 := by
      intro c hc
      simp only [List.mem_cons, List.not_mem_nil, or_false] at hc
      rcases hc with rfl | rfl | rfl | rfl | rfl | rfl <;>
        exact digitChar_ascii (emod10_bounds _).1 (emod10_bounds _).2
    rw [encrypt_number_eval _ _ _ _ _ _ hallD]
    rw [charVal_digitChar (emod10_bounds (charVal c0 - 7 + 10)).1
          (emod10_bounds (charVal c0 - 7 + 10)).2,
        charVal_digitChar (emod10_bounds (charVal c1 - 7 + 10)).1
          (emod10_bounds (charVal c1 - 7 + 10)).2,
        charVal_digitChar (emod10_bounds (charVal c2 - 7 + 10)).1
          (emod10_bounds (charVal c2 - 7 + 10)).2,
        charVal_digitChar (emod10_bounds (charVal c3 - 7 + 10)).1
          (emod10_bounds (charVal c3 - 7 + 10)).2,
        charVal_digitChar (emod10_bounds (charVal c4 - 7 + 10)).1
          (emod10_bounds (charVal c4 - 7 + 10)).2,
        charVal_digitChar (emod10_bounds (charVal c5 - 7 + 10)).1
          (emod10_bounds (charVal c5 - 7 + 10)).2]
    rw [shift_round_rev v0.1 v0.2, shift_round_rev v1.1 v1.2, shift_round_rev v2.1 v2.2,
        shift_round_rev v3.1 v3.2, shift_round_rev v4.1 v4.2, shift_round_rev v5.1 v5.2]
    have hbV : ∀ d ∈ [charVal c0, charVal c1, charVal c2, charVal c3,
        charVal c4, charVal c5], 0 ≤ d ∧ d < 10 := by
      intro d hd'
      simp only [List.mem_cons, List.not_mem_nil, or_false] at hd'
      rcases hd' with rfl | rfl | rfl | rfl | rfl | rfl <;> assumption
    rw [joinDigits_six hbV]
    rw [digitChar_charVal a0.1 a0.2, digitChar_charVal a1.1 a1.2,
        digitChar_charVal a2.1 a2.2, digitChar_charVal a3.1 a3.2,
        digitChar_charVal a4.1 a4.2, digitChar_charVal a5.1 a5.2]

/-- Witness for C1 at the concrete input `"123456"`. -/
theorem c1_round_trip_witness :
    SixDigitString "123456" ∧
    ((∃ e, encrypt_number "123456" = Except.ok (some e) ∧
        decrypt_number e = Except.ok (some "123456")) ∧
     (∃ d, decrypt_number "123456" = Except.ok (some d) ∧
        encrypt_number d = Except.ok (some "123456"))) :=
  ⟨by decide, c1_round_trip "123456" (by decide)⟩


/-- Counterexample to C2 as stated: at the all-Arabic-Indic-digit input
the claimed equivalence "returns `None` iff the input is not a
6-ASCII-digit string" is false — the input is not a 6-ASCII-digit string,
yet `encrypt_number` accepts it and returns `"777777"` rather than the
failure signal. -/
theorem c2_counterexample_nonascii_accepted :
    ¬ (encrypt_number arabicZeros = Except.ok none ↔ ¬ SixDigitString arabicZeros) ∧
    ¬ SixDigitString arabicZeros ∧
    encrypt_number arabicZeros = Except.ok (some "777777") := by
  refine ⟨?_, ?_, ?_⟩ <;> decide

theorem encrypt_number_ok_none_iff (s : String) :
    encrypt_number s = Except.ok none ↔ ¬(pyIsDigit s = true ∧ s.length = 6) := by
  unfold encrypt_number
  cases hb : (pyIsDigit s && s.length == 6) with
  | false =>
    constructor
    · intro _ hcontra
      rw [hcontra.1, hcontra.2] at hb
      simp at hb
    · intro _
      rfl
  | true =>
    simp only [Bool.and_eq_true, beq_iff_eq] at hb
    constructor
    · intro hres
      split at hres
      · exact absurd (by assumption : (!true) = true) (by simp)
      · split at hres
        · simp at hres
        · dsimp only at hres
          split at hres
          · simp at hres
          · simp at hres
    · intro hcontra
      exact absurd hb hcontra

theorem decrypt_number_ok_none_iff (s : String) :
    decrypt_number s = Except.ok none ↔ ¬(pyIsDigit s = true ∧ s.length = 6) := by
  unfold decrypt_number
  cases hb : (pyIsDigit s && s.length == 6) with
  | false =>
    constructor
    · intro _ hcontra
      rw [hcontra.1, hcontra.2] at hb
      simp at hb
    · intro _
      rfl
  | true =>
    simp only [Bool.and_eq_true, beq_iff_eq] at hb
    constructor
    · intro hres
      split at hres
      · exact absurd (by assumption : (!true) = true) (by simp)
      · split at hres
        · simp at hres
        · split at hres
          · simp at hres
          · simp at hres
    · intro hcontra
      exact absurd hb hcontra

/-- C2 amended: `encrypt_number` and `decrypt_number` return the failure
signal `None` if and only if the input is not a 6-character string whose
characters all pass Python's Unicode-aware `str.isdigit` test — a strictly
larger acceptance class than the 6 ASCII-digit strings, since non-ASCII
decimal digits (e.g. Arabic-Indic) are accepted. -/
theorem c2_rejection_iff_not_python_digits (s : String) :
    (encrypt_number s = Except.ok none ↔ ¬(pyIsDigit s = true ∧ s.length = 6)) ∧
    (decrypt_number s = Except.ok none ↔ ¬(pyIsDigit s = true ∧ s.length = 6)) :=
  ⟨encrypt_number_ok_none_iff s, decrypt_number_ok_none_iff s⟩

/-- C3: at the failing input of six U+00B2 (superscript two) characters,
`str.isdigit` accepts the string, so validation passes, and then
`int(...)` raises `ValueError` — the functions neither return a digit
string nor the failure signal, contradicting the claimed (and
docstring-stated) single failure mode. -/
theorem c3_superscript_input_raises :
    pyIsDigit superTwos = true ∧ superTwos.length = 6 ∧
    encrypt_number superTwos = Except.error PyExn.valueError ∧
    decrypt_number superTwos = Except.error PyExn.valueError := by
  refine ⟨by decide, by decide, by decide, by decide⟩

/-- C10: the per-digit shift commutes with the positional swap — applying
the +7 (or -7) modulo-10 shift and then `swap_digits` gives the same
result as swapping first and shifting afterwards; likewise for the spec's
pipeline stages.  Hence the order reversal between encryption (shift then
swap) and decryption (swap then shift) is not needed for correctness:
either order yields the same function. -/
theorem c10_shift_commutes_with_swap (x : List Int) (h : x.length = 6) :
    swap_digits (x.map fun d => (d + 7) % 10) =
      (swap_digits x).map (List.map fun d => (d + 7) % 10) ∧
    swap_digits (x.map fun d => (d - 7 + 10) % 10) =
      (swap_digits x).map (List.map fun d => (d - 7 + 10) % 10) ∧
    specSwap (specShiftF x) = specShiftF (specSwap x) ∧
    specSwap (specShiftB x) = specShiftB (specSwap x) := by
  obtain ⟨a, b, c, d, e, f, rfl⟩ := list_eq_six x h
  exact ⟨rfl, rfl, rfl, rfl⟩

/-- Witness for C10 at the concrete list `[0, 1, 2, 3, 4, 5]`. -/
theorem c10_shift_commutes_with_swap_witness :
    ([0, 1, 2, 3, 4, 5] : List Int).length = 6 ∧
    (swap_digits (([0, 1, 2, 3, 4, 5] : List Int).map fun d => (d + 7) % 10) =
      (swap_digits ([0, 1, 2, 3, 4, 5] : List Int)).map
        (List.map fun d => (d + 7) % 10) ∧
    swap_digits (([0, 1, 2, 3, 4, 5] : List Int).map fun d => (d - 7 + 10) % 10) =
      (swap_digits ([0, 1, 2, 3, 4, 5] : List Int)).map
        (List.map fun d => (d - 7 + 10) % 10) ∧
    specSwap (specShiftF [0, 1, 2, 3, 4, 5]) = specShiftF (specSwap [0, 1, 2, 3, 4, 5]) ∧
    specSwap (specShiftB [0, 1, 2, 3, 4, 5]) = specShiftB (specSwap [0, 1, 2, 3, 4, 5])) :=
  ⟨rfl, c10_shift_commutes_with_swap [0, 1, 2, 3, 4, 5] rfl⟩


theorem storeRead_alloc_fresh (st : PyListStore α) (v : List α) :
    storeRead (storeAlloc st v).1 (storeAlloc st v).2 = v := by
  unfold storeRead storeAlloc
  simp [List.getElem?_concat_length]

theorem storeRead_alloc_old (st : PyListStore α) (v : List α) (r : Nat)
    (h : r < st.cells.length) :
    storeRead (storeAlloc st v).1 r = storeRead st r := by
  unfold storeRead storeAlloc
  simp [List.getElem?_append_left h]

theorem storeRead_write_same (st : PyListStore α) (r : Nat) (v : List α)
    (h : r < st.cells.length) :
    storeRead (storeWrite st r v) r = v := by
  unfold storeRead storeWrite
  simp [List.getElem?_set_self, h]

theorem storeRead_write_other (st : PyListStore α) (r r' : Nat) (v : List α)
    (h : r' ≠ r) :
    storeRead (storeWrite st r' v) r = storeRead st r := by
  unfold storeRead storeWrite
  simp [List.getElem?_set_ne h]

theorem storeWrite_cells_length (st : PyListStore α) (r : Nat) (v : List α) :
    (storeWrite st r v).cells.length = st.cells.length := by
  unfold storeWrite
  simp

/-- C9: executing `swap_digits` on the heap neither mutates nor aliases
the caller's list: for every store and every object `digitsRef` holding a
6-element list, after the call the caller's object still holds exactly
the elements it held before, in the same order, and the returned object
is a distinct, freshly allocated one holding the swapped value (the same
value `swap_digits` computes on list values). -/
theorem c9_no_mutation_no_alias {α : Type} (st : PyListStore α) (digitsRef : Nat)
    (href : digitsRef < st.cells.length)
    (hlen : (storeRead st digitsRef).length = 6) :
    storeRead (swap_digits_st st digitsRef).1 digitsRef = storeRead st digitsRef ∧
    ∃ r', (swap_digits_st st digitsRef).2 = some r' ∧ r' ≠ digitsRef ∧
      some (storeRead (swap_digits_st st digitsRef).1 r') =
        swap_digits (storeRead st digitsRef) := by
  obtain ⟨a, b, c, d, e, f, hx⟩ := list_eq_six (storeRead st digitsRef) hlen
  have hfresh : storeRead (storeAlloc st (storeRead st digitsRef)).1
      (storeAlloc st (storeRead st digitsRef)).2 = [a, b, c, d, e, f] := by
    rw [storeRead_alloc_fresh, hx]
  have hlt1 : (storeAlloc st (storeRead st digitsRef)).2 <
      ((storeAlloc st (storeRead st digitsRef)).1).cells.length := by
    unfold storeAlloc
    simp
  have e1 : storeSwapPair (storeAlloc st (storeRead st digitsRef)).1
      (storeAlloc st (storeRead st digitsRef)).2 0 2 =
      some (storeWrite (storeAlloc st (storeRead st digitsRef)).1
        (storeAlloc st (storeRead st digitsRef)).2 [c, b, a, d, e, f]) := by
    unfold storeSwapPair
    rw [hfresh]
    rfl
  have hr2 : storeRead (storeWrite (storeAlloc st (storeRead st digitsRef)).1
      (storeAlloc st (storeRead st digitsRef)).2 [c, b, a, d, e, f])
      (storeAlloc st (storeRead st digitsRef)).2 = [c, b, a, d, e, f] :=
    storeRead_write_same _ _ _ hlt1
  have e2 : storeSwapPair (storeWrite (storeAlloc st (storeRead st digitsRef)).1
      (storeAlloc st (storeRead st digitsRef)).2 [c, b, a, d, e, f])
      (storeAlloc st (storeRead st digitsRef)).2 1 3 =
      some (storeWrite (storeWrite (storeAlloc st (storeRead st digitsRef)).1
        (storeAlloc st (storeRead st digitsRef)).2 [c, b, a, d, e, f])
        (storeAlloc st (storeRead st digitsRef)).2 [c, d, a, b, e, f]) := by
    unfold storeSwapPair
    rw [hr2]
    rfl
  have hlt2 : (storeAlloc st (storeRead st digitsRef)).2 <
      (storeWrite (storeAlloc st (storeRead st digitsRef)).1
        (storeAlloc st (storeRead st digitsRef)).2
        [c, b, a, d, e, f]).cells.length := by
    rw [storeWrite_cells_length]
    exact hlt1
  have hr3 : storeRead (storeWrite (storeWrite (storeAlloc st (storeRead st digitsRef)).1
      (storeAlloc st (storeRead st digitsRef)).2 [c, b, a, d, e, f])
      (storeAlloc st (storeRead st digitsRef)).2 [c, d, a, b, e, f])
      (storeAlloc st (storeRead st digitsRef)).2 = [c, d, a, b, e, f] :=
    storeRead_write_same _ _ _ hlt2
  have e3 : storeSwapPair (storeWrite (storeWrite (storeAlloc st (storeRead st digitsRef)).1
      (storeAlloc st (storeRead st digitsRef)).2 [c, b, a, d, e, f])
      (storeAlloc st (storeRead st digitsRef)).2 [c, d, a, b, e, f])
      (storeAlloc st (storeRead st digitsRef)).2 4 5 =
      some (storeWrite (storeWrite (storeWrite (storeAlloc st (storeRead st digitsRef)).1
        (storeAlloc st (storeRead st digitsRef)).2 [c, b, a, d, e, f])
        (storeAlloc st (storeRead st digitsRef)).2 [c, d, a, b, e, f])
        (storeAlloc st (storeRead st digitsRef)).2 [c, d, a, b, f, e]) := by
    unfold storeSwapPair
    rw [hr3]
    rfl
  have key : swap_digits_st st digitsRef =
      (storeWrite (storeWrite (storeWrite (storeAlloc st (storeRead st digitsRef)).1
        (storeAlloc st (storeRead st digitsRef)).2 [c, b, a, d, e, f])
        (storeAlloc st (storeRead st digitsRef)).2 [c, d, a, b, e, f])
        (storeAlloc st (storeRead st digitsRef)).2 [c, d, a, b, f, e],
       some (storeAlloc st (storeRead st digitsRef)).2) := by
    unfold swap_digits_st
    simp only [e1, e2, e3]
  have hne : (storeAlloc st (storeRead st digitsRef)).2 ≠ digitsRef := by
    show st.cells.length ≠ digitsRef
    omega
  have hlt3 : (storeAlloc st (storeRead st digitsRef)).2 <
      (storeWrite (storeWrite (storeAlloc st (storeRead st digitsRef)).1
        (storeAlloc st (storeRead st digitsRef)).2 [c, b, a, d, e, f])
        (storeAlloc st (storeRead st digitsRef)).2
        [c, d, a, b, e, f]).cells.length := by
    rw [storeWrite_cells_length, storeWrite_cells_length]
    exact hlt1
  constructor
  · rw [key]
    rw [storeRead_write_other _ _ _ _ hne, storeRead_write_other _ _ _ _ hne,
        storeRead_write_other _ _ _ _ hne, storeRead_alloc_old _ _ _ href]
  · refine ⟨(storeAlloc st (storeRead st digitsRef)).2, by rw [key], hne, ?_⟩
    rw [key]
    rw [storeRead_write_same _ _ _ hlt3]
    rw [hx, swap_digits_six]

/-- Witness for C9 at the concrete one-object store holding
`[1, 2, 3, 4, 5, 6]`. -/
theorem c9_no_mutation_no_alias_witness :
    (0 < (PyListStore.mk [[(1 : Int), 2, 3, 4, 5, 6]]).cells.length ∧
     (storeRead (PyListStore.mk [[(1 : Int), 2, 3, 4, 5, 6]]) 0).length = 6) ∧
    (storeRead (swap_digits_st (PyListStore.mk [[(1 : Int), 2, 3, 4, 5, 6]]) 0).1 0 =
      storeRead (PyListStore.mk [[(1 : Int), 2, 3, 4, 5, 6]]) 0 ∧
     ∃ r', (swap_digits_st (PyListStore.mk [[(1 : Int), 2, 3, 4, 5, 6]]) 0).2 = some r' ∧
       r' ≠ 0 ∧
       some (storeRead (swap_digits_st (PyListStore.mk [[(1 : Int), 2, 3, 4, 5, 6]]) 0).1 r') =
         swap_digits (storeRead (PyListStore.mk [[(1 : Int), 2, 3, 4, 5, 6]]) 0)) :=
  ⟨⟨by decide, by decide⟩,
   c9_no_mutation_no_alias (PyListStore.mk [[(1 : Int), 2, 3, 4, 5, 6]]) 0
     (by decide) (by decide)⟩
